import Mathlib

/-
Shallow embedding of the todo-backend task service (MichealShao/todo-backend).

Timestamps are modelled as natural numbers of minutes since the epoch, and
the server's local timezone is taken to be UTC (the spec's single-region,
ambient-clock assumption), so a JS Date's local calendar components coincide
with its UTC components.  A calendar day is 1440 minutes; local noon of day d
is d * 1440 + 720, local 4am is d * 1440 + 240, local midnight is d * 1440.

The repository contains several historical variants of the route file.  The
embedding follows the variant that the claims cite by line number:
  Routes    - the first (current) variant of src/routes/tasks.js,
              which uses a 4am grace period for expiry;
  TaskUtils - src/utils/taskUtils.js;
  DateUtils - src/utils/dateUtils.js (the second document in utils);
  Part008   - src/unnamed/part_008 (an older route variant).
The Mongo collection is modelled as a list of tasks; findById, updateOne and
findOneAndUpdate act on the first element matching the id, updateMany on all
matching elements.
-/

namespace TodoBackend

/-- Calendar day index of a timestamp (JS getFullYear/getMonth/getDate,
collapsed to a single day count since local time = UTC in the model). -/
def dayOf (t : Nat) : Nat := t / 1440

/-- Local hour of a timestamp (JS getHours). -/
def hourOf (t : Nat) : Nat := t % 1440 / 60

/-- Timestamp of 12:00 local/UTC on calendar day d (the "fixed" noon date). -/
def noonOfDay (d : Nat) : Nat := d * 1440 + 720

/-- Timestamp of local midnight of the day of t
(JS new Date(getFullYear, getMonth, getDate)). -/
def startOfDay (t : Nat) : Nat := dayOf t * 1440

/-- Task status enum of the mongoose Task schema:
Pending, In Progress, Completed, Expired. -/
inductive Status where
  | pending
  | inProgress
  | completed
  | expired
deriving DecidableEq, Repr

/-- A persisted Task document (src/models/Task.js): owner reference, priority,
deadline, hours, details, status, nullable start_time.  Ids and users are
modelled as naturals. -/
structure Task where
  id : Nat
  user : Nat
  priority : String
  deadline : Nat
  hours : Nat
  details : String
  status : Status
  start_time : Option Nat
deriving DecidableEq, Repr

/-- HTTP error response: status code and message. -/
structure ErrResp where
  code : Nat
  msg : String
deriving DecidableEq, Repr

namespace DateUtils

/-- createFixedDate restricted to an actual (non-null) date: a new date at
noon UTC on the same calendar day, built from the components via an ISO
string in the source. -/
def fixedNoon (t : Nat) : Nat := noonOfDay (dayOf t)

/-- dateUtils.createFixedDate.  The input may be null (none); the source does
not guard: new Date(null) in JS coerces null to the epoch timestamp 0, so a
null input yields noon of 1970-01-01, not null.  The function always returns
a Date object, hence always some. -/
def createFixedDate (date : Option Nat) : Option Nat :=
  some (fixedNoon (date.getD 0))

/-- dateUtils.getDateOnly: strips the time component (local midnight). -/
def getDateOnly (t : Nat) : Nat := startOfDay t

/-- dateUtils.getTodayDate: today's date with the time stripped. -/
def getTodayDate (now : Nat) : Nat := getDateOnly now

/-- dateUtils.isBeforeToday: strictly before the start of the current day. -/
def isBeforeToday (now t : Nat) : Bool := decide (getDateOnly t < getTodayDate now)

end DateUtils

/-- Selection predicate of the expiry sweeps' find query:
user matches, deadline instant strictly before the boundary, status not
Expired. -/
def sweepMatch (boundary uid : Nat) (t : Task) : Bool :=
  t.user == uid && decide (t.deadline < boundary) && t.status != .expired

/-- Common shape of both expiry sweeps: find all tasks of the user whose
deadline instant is before the boundary and whose status is not Expired,
then updateMany them (matched again by id and user) to Expired.  Returns the
updated store and the number of tasks found for transition. -/
def sweepWithBoundary (boundary uid : Nat) (store : List Task) : List Task × Nat :=
  let tasksToUpdate := store.filter (sweepMatch boundary uid)
  let ids := tasksToUpdate.map Task.id
  (store.map (fun t => if ids.contains t.id && t.user == uid then {t with status := .expired} else t),
   tasksToUpdate.length)

namespace TaskUtils

/-- taskUtils.isTaskExpired: Expired tasks stay expired; otherwise the
deadline's date part is compared strictly against today's date. -/
def isTaskExpired (now : Nat) (task : Task) : Bool :=
  if task.status == .expired then false
  else decide (DateUtils.getDateOnly task.deadline < DateUtils.getTodayDate now)

/-- taskUtils.updateExpiredTasksForUser: sweep with boundary
getTodayDate (start of the current day). -/
def updateExpiredTasksForUser (now uid : Nat) (store : List Task) : List Task × Nat :=
  sweepWithBoundary (DateUtils.getTodayDate now) uid store

/-- taskUtils.processStartTime: derives the start time from the (requested)
status; throws (models as .error) when an In Progress start time is dated
before today. -/
def processStartTime (now : Nat) (status : Status) (currentStartTime : Option Nat)
    (oldStatus : Option Status) : Except String (Option Nat) :=
  if status = .pending then .ok none
  else if status = .inProgress then
    match currentStartTime with
    | some t =>
      if DateUtils.getDateOnly t < DateUtils.getTodayDate now then
        .error "Start time cannot be earlier than today"
      else .ok (some (DateUtils.fixedNoon t))
    | none =>
      if oldStatus ≠ some .inProgress then .ok (some (DateUtils.fixedNoon now))
      else .ok none
  else
    match currentStartTime with
    | some t => .ok (some (DateUtils.fixedNoon t))
    | none => .ok none

/-- Update-request shape handled by taskUtils.validateTaskUpdate: deadline,
status and start_time; a start_time of some none is an explicit null, none is
an absent field. -/
structure Updates where
  deadline : Option Nat := none
  status : Option Status := none
  start_time : Option (Option Nat) := none
deriving DecidableEq, Repr

/-- Trailing block of taskUtils.validateTaskUpdate: the explicit start_time
update, keyed on the status accumulated so far (or the task's, or Pending). -/
def validateTaskUpdateFinal (task : Option Task) (updates : Updates) (v : Updates) : Updates :=
  match updates.start_time with
  | none => v
  | some stOpt =>
    let newStatus : Status :=
      match v.status with
      | some s => s
      | none => match task with | some t => t.status | none => .pending
    if newStatus = .pending then {v with start_time := some none}
    else match stOpt with
      | some st => {v with start_time := some (some (DateUtils.fixedNoon st))}
      | none => v

/-- taskUtils.validateTaskUpdate: starts from a copy of the updates, applies
the deadline expiry rule first, then the status rule (which overwrites any
Expired set by the deadline rule), then the explicit start_time rule. -/
def validateTaskUpdate (now : Nat) (task : Option Task) (updates : Updates) :
    Except String Updates :=
  let v1 : Updates :=
    match updates.deadline with
    | some d =>
      let fd := DateUtils.fixedNoon d
      let v := {updates with deadline := some fd}
      if DateUtils.isBeforeToday now fd then {v with status := some .expired} else v
    | none =>
      match task with
      | some t =>
        if DateUtils.isBeforeToday now t.deadline && t.status != .expired then
          {updates with status := some .expired}
        else updates
      | none => updates
  match updates.status with
  | some s =>
    if s ≠ .expired then
      if updates.start_time.isNone then
        match processStartTime now s (task.bind Task.start_time) (task.map Task.status) with
        | .error e => .error e
        | .ok st => .ok (validateTaskUpdateFinal task updates {v1 with status := some s, start_time := some st})
      else .ok (validateTaskUpdateFinal task updates {v1 with status := some s})
    else .ok (validateTaskUpdateFinal task updates v1)
  | none => .ok (validateTaskUpdateFinal task updates v1)

end TaskUtils

namespace Part008

/-- part_008 checkTaskExpired: compares the raw deadline instant against the
current instant. -/
def checkTaskExpired (now : Nat) (task : Task) : Bool :=
  decide (task.deadline < now) && task.status != .expired

/-- part_008 fixDateTimezone: null input is guarded and returns null;
otherwise the date is fixed at local noon of its calendar day. -/
def fixDateTimezone (dateString : Option Nat) : Option Nat :=
  match dateString with
  | none => none
  | some t => some (DateUtils.fixedNoon t)

end Part008

/-- Replace the first element satisfying p by its image under f
(Mongo updateOne / findOneAndUpdate / save on a single document). -/
def updateFirst (p : Task → Bool) (f : Task → Task) : List Task → List Task
  | [] => []
  | t :: ts => if p t then f t :: ts else t :: updateFirst p f ts

namespace Routes

/-- Grace-period expiry boundary of the current route file: 4am of today,
shifted back one day when the current local time is before 4am. -/
def graceBoundary (now : Nat) : Nat :=
  (if hourOf now < 4 then dayOf now - 1 else dayOf now) * 1440 + 240

/-- routes/tasks.js checkTaskExpired: the deadline's date at 4am is compared
strictly against the grace boundary, and Expired tasks are excluded. -/
def checkTaskExpired (now : Nat) (task : Task) : Bool :=
  decide (dayOf task.deadline * 1440 + 240 < graceBoundary now) && task.status != .expired

/-- routes/tasks.js validateStartTime: a provided start_time dated today
becomes the current instant, any other provided date becomes noon of its
calendar day; with no start_time, a transition into In Progress yields the
current instant, otherwise the (absent) start_time is returned.  This
variant performs no before-today validation and never throws. -/
def validateStartTime (now : Nat) (status : Status) (start_time : Option Nat)
    (oldStatus : Status) : Option Nat :=
  match start_time with
  | some t => if dayOf t == dayOf now then some now else some (noonOfDay (dayOf t))
  | none =>
    if status == .inProgress && oldStatus != .inProgress then some now
    else none

/-- routes/tasks.js processDate: a date falling on today is replaced by the
current instant when isToday is set; otherwise it is fixed at noon UTC of
its calendar day. -/
def processDate (now : Nat) (date : Nat) (isToday : Bool) : Nat :=
  if isToday && (dayOf date == dayOf now) then now else noonOfDay (dayOf date)

/-- routes/tasks.js autoUpdateExpiredStatus middleware: sweep with the 4am
grace boundary. -/
def autoUpdateExpiredStatus (now uid : Nat) (store : List Task) : List Task × Nat :=
  sweepWithBoundary (graceBoundary now) uid store

/-- Request body of POST /tasks.  Absent or JS-falsy fields are none; a
start_time of some none is an explicit null. -/
structure CreateReq where
  priority : Option String := none
  deadline : Option Nat := none
  hours : Option Nat := none
  details : Option String := none
  status : Option Status := none
  start_time : Option (Option Nat) := none
deriving DecidableEq, Repr

/-- POST /tasks handler (first variant): required-field check, deadline
processing, 4am-grace expiry override, manual-Expired coercion to Pending,
start_time processing.  The store assigns the new id, passed as newId. -/
def createTask (now uid newId : Nat) (req : CreateReq) : Except ErrResp Task :=
  match req.priority, req.deadline, req.hours, req.details with
  | some priority, some dl, some hours, some details =>
    let initialStatus := req.status.getD .pending
    let deadlineDate := processDate now dl true
    let todayDate := graceBoundary now
    let deadlineDateOnly := dayOf deadlineDate * 1440 + 240
    let st :=
      if deadlineDateOnly < todayDate then Status.expired
      else if initialStatus = .expired then .pending
      else initialStatus
    let fixedStartTime : Option Nat :=
      match req.start_time with
      | some (some t) => some (processDate now t true)
      | _ => if st = .inProgress then some now else none
    .ok { id := newId, user := uid, priority := priority, deadline := deadlineDate,
          hours := hours, details := details, status := st, start_time := fixedStartTime }
  | _, _, _, _ => .error ⟨400, "Please provide all required fields"⟩

/-- GET /tasks/:id handler: not found, ownership check, then an opportunistic
expiry flip persisted via save before the task is returned. -/
def getTaskById (now uid taskId : Nat) (store : List Task) :
    List Task × Except ErrResp Task :=
  match store.find? (fun t => t.id == taskId) with
  | none => (store, .error ⟨404, "Task not found"⟩)
  | some task =>
    if task.user ≠ uid then (store, .error ⟨401, "Unauthorized"⟩)
    else if checkTaskExpired now task then
      let task' := {task with status := .expired}
      (updateFirst (fun t => t.id == taskId) (fun _ => task') store, .ok task')
    else (store, .ok task)

/-- Request body of PUT /tasks/:id. -/
structure UpdateReq where
  priority : Option String := none
  hours : Option Nat := none
  details : Option String := none
  deadline : Option Nat := none
  status : Option Status := none
  start_time : Option (Option Nat) := none
deriving DecidableEq, Repr

/-- The $set document accumulated by the PUT handler. -/
structure TaskFields where
  priority : Option String := none
  hours : Option Nat := none
  details : Option String := none
  deadline : Option Nat := none
  start_time : Option (Option Nat) := none
  status : Option Status := none
deriving DecidableEq, Repr

/-- Apply a $set document to a task. -/
def applyFields (f : TaskFields) (t : Task) : Task :=
  { t with
    priority := f.priority.getD t.priority,
    hours := f.hours.getD t.hours,
    details := f.details.getD t.details,
    deadline := f.deadline.getD t.deadline,
    start_time := match f.start_time with | none => t.start_time | some v => v,
    status := f.status.getD t.status }

/-- PUT /tasks/:id handler (first variant): lookup and ownership check, field
accumulation (deadline and start_time processed through processDate), the
status rule that ignores a requested Expired and derives start_time via
validateStartTime when none was supplied, and finally the 4am-grace deadline
expiry check (on the new deadline if supplied, else on the existing one),
which overwrites any requested status. -/
def updateTask (now uid taskId : Nat) (req : UpdateReq) (store : List Task) :
    List Task × Except ErrResp Task :=
  match store.find? (fun t => t.id == taskId) with
  | none => (store, .error ⟨404, "Task not found"⟩)
  | some task =>
    if task.user ≠ uid then (store, .error ⟨401, "Unauthorized"⟩)
    else
      let f0 : TaskFields :=
        { priority := req.priority, hours := req.hours, details := req.details,
          deadline := req.deadline.map (fun d => processDate now d true) }
      let f1 :=
        match req.start_time with
        | none => f0
        | some none => {f0 with start_time := some none}
        | some (some t) => {f0 with start_time := some (some (processDate now t true))}
      let f2 :=
        match req.status with
        | none => f1
        | some s =>
          if s ≠ .expired then
            let fs := {f1 with status := some s}
            if req.start_time.isNone then
              {fs with start_time := some (validateStartTime now s task.start_time task.status)}
            else fs
          else f1
      let f3 :=
        match req.deadline with
        | some d =>
          let deadlineDateOnly := dayOf (processDate now d true) * 1440 + 240
          if deadlineDateOnly < graceBoundary now then {f2 with status := some .expired} else f2
        | none =>
          let existingDeadlineDateOnly := dayOf task.deadline * 1440 + 240
          if existingDeadlineDateOnly < graceBoundary now ∧ task.status ≠ .expired then
            {f2 with status := some .expired}
          else f2
      let task' := applyFields f3 task
      (updateFirst (fun t => t.id == taskId) (fun _ => task') store, .ok task')

/-- Request body of PUT /tasks/batch-update/status. -/
structure BatchReq where
  taskIds : List Nat := []
  status : Option Status := none
deriving DecidableEq, Repr

/-- Success body of the batch endpoint. -/
structure BatchResp where
  updatedTasks : List Nat
  status : Status
deriving DecidableEq, Repr

/-- Allowed target statuses of the batch endpoint. -/
def validStatuses : List Status := [.pending, .inProgress, .completed]

/-- One iteration of the batch In Progress loop: re-fetch the task by id,
then set status (and, when it was not already In Progress, start_time to the
current instant) on the document with that id. -/
def batchInProgressStep (now : Nat) (store : List Task) (taskId : Nat) : List Task :=
  match store.find? (fun t => t.id == taskId) with
  | none => store
  | some task =>
    if task.status ≠ .inProgress then
      updateFirst (fun t => t.id == taskId)
        (fun t => {t with status := .inProgress, start_time := some now}) store
    else
      updateFirst (fun t => t.id == taskId) (fun t => {t with status := .inProgress}) store

/-- PUT /tasks/batch-update/status handler: input validation, rejection of
Expired, enum check, lookup of the caller-owned tasks among the ids (404 when
none), then the per-status bulk update, answering with the found ids. -/
def batchUpdateStatus (now uid : Nat) (req : BatchReq) (store : List Task) :
    List Task × Except ErrResp BatchResp :=
  match req.status with
  | none => (store, .error ⟨400, "Please provide valid task ID array and status"⟩)
  | some st =>
    if req.taskIds.isEmpty then
      (store, .error ⟨400, "Please provide valid task ID array and status"⟩)
    else if st = .expired then
      (store, .error ⟨400, "Not allowed to manually set tasks to Expired status"⟩)
    else if st ∉ validStatuses then
      (store, .error ⟨400, "Invalid status value"⟩)
    else
      let tasks := store.filter (fun t => req.taskIds.contains t.id && t.user == uid)
      if tasks.isEmpty then
        (store, .error ⟨404, "No specified tasks found"⟩)
      else
        let foundTaskIds := tasks.map Task.id
        let store' :=
          if st = .pending then
            store.map (fun t =>
              if foundTaskIds.contains t.id then {t with status := .pending, start_time := none} else t)
          else if st = .inProgress then
            foundTaskIds.foldl (batchInProgressStep now) store
          else
            store.map (fun t => if foundTaskIds.contains t.id then {t with status := st} else t)
        (store', .ok ⟨foundTaskIds, st⟩)

/-- DELETE /tasks/:id handler: lookup, ownership check, findByIdAndDelete. -/
def deleteTask (uid taskId : Nat) (store : List Task) :
    List Task × Except ErrResp Unit :=
  match store.find? (fun t => t.id == taskId) with
  | none => (store, .error ⟨404, "Task not found"⟩)
  | some task =>
    if task.user ≠ uid then (store, .error ⟨401, "Unauthorized"⟩)
    else (store.eraseP (fun t => t.id == taskId), .ok ())

end Routes

/-- The two state invariants of the spec's data model:
Pending implies no start time, In Progress implies a start time. -/
def Inv (t : Task) : Prop :=
  (t.status = .pending → t.start_time = none) ∧
  (t.status = .inProgress → t.start_time ≠ none)

/-- Expected per-task effect of the batch status update, used to state what
"exactly the subset is updated" means. -/
def batchApply (now : Nat) (st : Status) (t : Task) : Task :=
  if st = .pending then {t with status := .pending, start_time := none}
  else if st = .inProgress then
    (if t.status ≠ .inProgress then {t with status := .inProgress, start_time := some now}
     else {t with status := .inProgress})
  else {t with status := st}

/-! Helper lemmas about the date arithmetic and the store operations. -/

theorem dayOf_mul_add {d r : Nat} (h : r < 1440) : dayOf (d * 1440 + r) = d := by
  unfold dayOf
  omega

theorem dayOf_lt_iff {x D : Nat} : dayOf x < D ↔ x < D * 1440 := by
  unfold dayOf
  omega

theorem graceBoundary_le (now : Nat) :
    Routes.graceBoundary now ≤ dayOf now * 1440 + 240 := by
  unfold Routes.graceBoundary
  split <;> omega

theorem graceBoundary_eq_of_hour (now : Nat) (h : 4 ≤ hourOf now) :
    Routes.graceBoundary now = dayOf now * 1440 + 240 := by
  unfold Routes.graceBoundary
  rw [if_neg (by omega)]

theorem dayOf_processDate (now d : Nat) (b : Bool) :
    dayOf (Routes.processDate now d b) = dayOf d := by
  unfold Routes.processDate
  split
  case isTrue h =>
    have h2 : dayOf d = dayOf now := by
      have h3 := (Bool.and_eq_true _ _).mp h
      exact beq_iff_eq.mp h3.2
    omega
  case isFalse h =>
    unfold noonOfDay
    exact dayOf_mul_add (by omega)

theorem isBeforeToday_fixedNoon (now d : Nat) (h : dayOf d < dayOf now) :
    DateUtils.isBeforeToday now (DateUtils.fixedNoon d) = true := by
  unfold DateUtils.isBeforeToday DateUtils.fixedNoon DateUtils.getTodayDate
    DateUtils.getDateOnly startOfDay noonOfDay
  rw [dayOf_mul_add (by omega)]
  exact decide_eq_true (by omega)

/-! Claim C9: null handling of the date-fixing functions. -/

/-- Claim C9, counterexample: for null input, dateUtils.createFixedDate does
not return null; it returns the timestamp of noon UTC on 1970-01-01 (JS
coerces null to the epoch), refuting the claim that the date-fixing function
returns null rather than any timestamp. -/
theorem c9_createFixedDate_null_counterexample :
    DateUtils.createFixedDate none = some 720 ∧ some 720 ≠ (none : Option Nat) := by
  constructor
  · rfl
  · simp

/-- Claim C9 (amended): only part_008's fixDateTimezone returns null for null
input; dateUtils.createFixedDate never returns null — for null input it
returns noon UTC of the epoch date 1970-01-01. -/
theorem c9_null_handling_amended :
    Part008.fixDateTimezone none = none ∧
    (∀ d, DateUtils.createFixedDate d ≠ none) ∧
    DateUtils.createFixedDate none = some (noonOfDay 0) := by
  refine ⟨rfl, fun d => ?_, rfl⟩
  simp [DateUtils.createFixedDate]

/-! Claim C5: agreement of the expiry predicates. -/

/-- Claim C5, counterexample: the expiry predicates of the three code paths
are not extensionally equal.  At 10:00 of day 1000, a Pending task whose
deadline is 00:30 of the same day is expired for part_008's checkTaskExpired
(raw instant comparison) but not expired for taskUtils.isTaskExpired
(start-of-day boundary) nor for the current route's checkTaskExpired
(4am-grace boundary). -/
theorem c5_boundary_disagreement_counterexample :
    Part008.checkTaskExpired (1000 * 1440 + 600)
      ⟨1, 7, "High", 1000 * 1440 + 30, 2, "d", .pending, none⟩ = true ∧
    TaskUtils.isTaskExpired (1000 * 1440 + 600)
      ⟨1, 7, "High", 1000 * 1440 + 30, 2, "d", .pending, none⟩ = false ∧
    Routes.checkTaskExpired (1000 * 1440 + 600)
      ⟨1, 7, "High", 1000 * 1440 + 30, 2, "d", .pending, none⟩ = false := by
  refine ⟨rfl, rfl, rfl⟩

/-- Claim C5 (amended): the code paths do not share one canonical boundary
(the route helper uses 4am grace, part_008 the raw instant), but within
taskUtils the single-task predicate isTaskExpired agrees extensionally with
the sweep's selection predicate at the start-of-day boundary: for a task of
the swept user, both classify exactly the same tasks as expired. -/
theorem c5_taskUtils_boundary_agreement (now uid : Nat) (t : Task)
    (h : t.user = uid) :
    sweepMatch (DateUtils.getTodayDate now) uid t = TaskUtils.isTaskExpired now t := by
  unfold sweepMatch TaskUtils.isTaskExpired DateUtils.getTodayDate DateUtils.getDateOnly
  unfold startOfDay dayOf
  subst h
  rcases hst : t.status == Status.expired with hfalse | htrue
  · have hne : (t.status != Status.expired) = true := by
      simp [bne, hst]
    simp only [hne, hst, beq_self_eq_true, Bool.and_true, Bool.true_and,
      Bool.false_eq_true, if_false]
    rw [decide_eq_decide]
    omega
  · have hne : (t.status != Status.expired) = false := by
      simp [bne, hst]
    simp [hne, hst]

/-- Claim C5 witness: the taskUtils agreement at a concrete task and time. -/
theorem c5_witness :
    sweepMatch (DateUtils.getTodayDate (1000 * 1440 + 600)) 7
      ⟨1, 7, "High", 900 * 1440, 2, "d", .pending, none⟩ =
    TaskUtils.isTaskExpired (1000 * 1440 + 600)
      ⟨1, 7, "High", 900 * 1440, 2, "d", .pending, none⟩ :=
  c5_taskUtils_boundary_agreement (1000 * 1440 + 600) 7
    ⟨1, 7, "High", 900 * 1440, 2, "d", .pending, none⟩ rfl

/-! Claim C8: ownership isolation on GET/PUT/DELETE /tasks/:id. -/

/-- Claim C8: when the task identified by the path exists but is owned by a
different user, GET, PUT and DELETE each answer 401 Unauthorized, never
return the other user's task, and leave the store unchanged. -/
theorem c8_ownership_isolation (now uid taskId : Nat) (store : List Task)
    (task : Task) (req : Routes.UpdateReq)
    (hfind : store.find? (fun t => t.id == taskId) = some task)
    (howner : task.user ≠ uid) :
    Routes.getTaskById now uid taskId store = (store, .error ⟨401, "Unauthorized"⟩) ∧
    Routes.updateTask now uid taskId req store = (store, .error ⟨401, "Unauthorized"⟩) ∧
    Routes.deleteTask uid taskId store = (store, .error ⟨401, "Unauthorized"⟩) := by
  refine ⟨?_, ?_, ?_⟩
  · unfold Routes.getTaskById
    rw [hfind]
    simp [howner]
  · unfold Routes.updateTask
    rw [hfind]
    simp [howner]
  · unfold Routes.deleteTask
    rw [hfind]
    simp [howner]

/-- Claim C8 witness: a concrete foreign-owned task is shielded from a
concrete caller on all three endpoints. -/
theorem c8_witness :
    Routes.getTaskById 1440000 7 1 [⟨1, 9, "High", 2000 * 1440, 2, "d", .pending, none⟩]
      = ([⟨1, 9, "High", 2000 * 1440, 2, "d", .pending, none⟩], .error ⟨401, "Unauthorized"⟩) ∧
    Routes.updateTask 1440000 7 1 {status := some .completed}
        [⟨1, 9, "High", 2000 * 1440, 2, "d", .pending, none⟩]
      = ([⟨1, 9, "High", 2000 * 1440, 2, "d", .pending, none⟩], .error ⟨401, "Unauthorized"⟩) ∧
    Routes.deleteTask 7 1 [⟨1, 9, "High", 2000 * 1440, 2, "d", .pending, none⟩]
      = ([⟨1, 9, "High", 2000 * 1440, 2, "d", .pending, none⟩], .error ⟨401, "Unauthorized"⟩) :=
  c8_ownership_isolation 1440000 7 1
    [⟨1, 9, "High", 2000 * 1440, 2, "d", .pending, none⟩]
    ⟨1, 9, "High", 2000 * 1440, 2, "d", .pending, none⟩
    {status := some .completed} rfl (by decide)

/-! Claim C10: batch update with no resolvable id answers 404. -/

/-- Claim C10: when the id list is nonempty, the requested status is valid
and not Expired, and no id resolves to a task owned by the caller, the batch
endpoint answers 404 "No specified tasks found" and updates nothing. -/
theorem c10_batch_no_tasks_404 (now uid : Nat) (req : Routes.BatchReq)
    (st : Status) (store : List Task)
    (hids : req.taskIds ≠ [])
    (hst : req.status = some st)
    (hnexp : st ≠ .expired)
    (hnone : store.filter (fun t => req.taskIds.contains t.id && t.user == uid) = []) :
    Routes.batchUpdateStatus now uid req store =
      (store, .error ⟨404, "No specified tasks found"⟩) := by
  unfold Routes.batchUpdateStatus
  rw [hst]
  have hemp : req.taskIds.isEmpty = false := by
    simpa [List.isEmpty_iff] using hids
  have hvalid : st ∈ Routes.validStatuses := by
    cases st <;> simp_all [Routes.validStatuses]
  have hnone' : ∀ x ∈ store, x.id ∈ req.taskIds → ¬ x.user = uid := by
    intro x hx hmem heq
    have hpx : (fun t => req.taskIds.contains t.id && t.user == uid) x = true := by
      simp [hmem, heq]
    have hx' : x ∈ store.filter (fun t => req.taskIds.contains t.id && t.user == uid) :=
      List.mem_filter.mpr ⟨hx, hpx⟩
    rw [hnone] at hx'
    exact absurd hx' (List.not_mem_nil x)
  simp [hemp, hnexp, hvalid, hnone]
  exact hnone'

/-- Claim C10 witness: a batch over one id owned by somebody else answers 404
with the store untouched. -/
theorem c10_witness :
    Routes.batchUpdateStatus 1440000 1 {taskIds := [5], status := some .pending}
        [⟨5, 2, "High", 2000 * 1440, 2, "d", .pending, none⟩]
      = ([⟨5, 2, "High", 2000 * 1440, 2, "d", .pending, none⟩],
         .error ⟨404, "No specified tasks found"⟩) :=
  c10_batch_no_tasks_404 1440000 1 {taskIds := [5], status := some .pending} .pending
    [⟨5, 2, "High", 2000 * 1440, 2, "d", .pending, none⟩]
    (by decide) rfl (by decide) (by decide)

/-! Claim C1: deadline-before-today forces persisted status Expired. -/

/-- Claim C1, counterexample: at 02:00 of day 1000 (inside the route's 4am
grace window) a create whose deadline is dated yesterday (day 999) is
persisted with status Pending, although the deadline's calendar date is
strictly before today — the claimed unconditional Expired override does not
happen. -/
theorem c1_grace_window_counterexample :
    Except.map Task.status
      (Routes.createTask (1000 * 1440 + 120) 7 1
        {priority := some "High", deadline := some (999 * 1440 + 720),
         hours := some 2, details := some "x"}) = .ok .pending ∧
    dayOf (999 * 1440 + 720) < dayOf (1000 * 1440 + 120) ∧
    Status.pending ≠ .expired := by
  refine ⟨rfl, by decide, by decide⟩

/-- Claim C1 (amended): the route handlers enforce the Expired override
against a 4am-grace boundary.  At or after 04:00 local time (where the grace
day equals today) every create, every update carrying a deadline dated
before today, and every update of a non-Expired task whose stored deadline
is dated before today persists status Expired, overriding any requested
status; before 04:00 the boundary shifts back one day.  The unused helper
taskUtils.validateTaskUpdate applies the strict before-today boundary, but
only a request that does not itself carry a status keeps that Expired (a
requested status overwrites it). -/
theorem c1_expiry_override_amended :
    (∀ now uid nid p dl h d st stt, 4 ≤ hourOf now → dayOf dl < dayOf now →
      Except.map Task.status
        (Routes.createTask now uid nid
          {priority := some p, deadline := some dl, hours := some h,
           details := some d, status := st, start_time := stt}) = .ok .expired)
  ∧ (∀ now uid tid req store task dl, 4 ≤ hourOf now →
      store.find? (fun t => t.id == tid) = some task → task.user = uid →
      req.deadline = some dl → dayOf dl < dayOf now →
      Except.map Task.status (Routes.updateTask now uid tid req store).2 = .ok .expired)
  ∧ (∀ now uid tid req store task, 4 ≤ hourOf now →
      store.find? (fun t => t.id == tid) = some task → task.user = uid →
      req.deadline = none → dayOf task.deadline < dayOf now → task.status ≠ .expired →
      Except.map Task.status (Routes.updateTask now uid tid req store).2 = .ok .expired)
  ∧ (∀ now task upd dl, upd.status = none → upd.deadline = some dl → dayOf dl < dayOf now →
      Except.map TaskUtils.Updates.status (TaskUtils.validateTaskUpdate now task upd)
        = .ok (some .expired)) := by
  refine ⟨?_, ?_, ?_, ?_⟩
  · intro now uid nid p dl h d st stt hhour hday
    unfold Routes.createTask
    have hlt : dayOf (Routes.processDate now dl true) * 1440 + 240 < Routes.graceBoundary now := by
      rw [dayOf_processDate, graceBoundary_eq_of_hour now hhour]
      omega
    simp [hlt, Except.map]
  · intro now uid tid req store task dl hhour hfind howner hdl hday
    unfold Routes.updateTask
    rw [hfind, hdl]
    have hlt : dayOf (Routes.processDate now dl true) * 1440 + 240 < Routes.graceBoundary now := by
      rw [dayOf_processDate, graceBoundary_eq_of_hour now hhour]
      omega
    simp [howner, hlt, Except.map, Routes.applyFields]
  · intro now uid tid req store task hhour hfind howner hdl hday hnexp
    unfold Routes.updateTask
    rw [hfind, hdl]
    have hlt : dayOf task.deadline * 1440 + 240 < Routes.graceBoundary now := by
      rw [graceBoundary_eq_of_hour now hhour]
      omega
    simp [howner, hlt, hnexp, Except.map, Routes.applyFields]
  · intro now task upd dl hstat hdl hday
    simp only [TaskUtils.validateTaskUpdate, hdl, hstat,
      isBeforeToday_fixedNoon now dl hday, if_true]
    unfold TaskUtils.validateTaskUpdateFinal
    rcases hstt : upd.start_time with _ | stOpt
    · simp [hstt, Except.map]
    · rcases stOpt with _ | stv <;> simp [hstt, Except.map]

/-- Claim C1 witness: the amended override at concrete inputs — a create at
05:00 with yesterday's deadline, an update carrying yesterday's deadline, an
update of a task whose stored deadline is yesterday, and validateTaskUpdate
on yesterday's deadline, each yielding Expired. -/
theorem c1_witness :
    Except.map Task.status
      (Routes.createTask (1000 * 1440 + 300) 7 1
        {priority := some "High", deadline := some (999 * 1440 + 720),
         hours := some 2, details := some "x"}) = .ok .expired ∧
    Except.map Task.status
      (Routes.updateTask (1000 * 1440 + 300) 7 1 {deadline := some (999 * 1440 + 720)}
        [⟨1, 7, "High", 2000 * 1440 + 720, 3, "d", .pending, none⟩]).2 = .ok .expired ∧
    Except.map Task.status
      (Routes.updateTask (1000 * 1440 + 300) 7 1 {}
        [⟨1, 7, "High", 999 * 1440 + 720, 3, "d", .pending, none⟩]).2 = .ok .expired ∧
    Except.map TaskUtils.Updates.status
      (TaskUtils.validateTaskUpdate (1000 * 1440 + 300) none
        {deadline := some (999 * 1440 + 720)}) = .ok (some .expired) :=
  ⟨c1_expiry_override_amended.1 (1000 * 1440 + 300) 7 1 "High" (999 * 1440 + 720) 2 "x"
      none none (by decide) (by decide),
   c1_expiry_override_amended.2.1 (1000 * 1440 + 300) 7 1 {deadline := some (999 * 1440 + 720)}
      [⟨1, 7, "High", 2000 * 1440 + 720, 3, "d", .pending, none⟩]
      ⟨1, 7, "High", 2000 * 1440 + 720, 3, "d", .pending, none⟩ (999 * 1440 + 720)
      (by decide) rfl rfl rfl (by decide),
   c1_expiry_override_amended.2.2.1 (1000 * 1440 + 300) 7 1 {}
      [⟨1, 7, "High", 999 * 1440 + 720, 3, "d", .pending, none⟩]
      ⟨1, 7, "High", 999 * 1440 + 720, 3, "d", .pending, none⟩
      (by decide) rfl rfl rfl (by decide) (by decide),
   c1_expiry_override_amended.2.2.2 (1000 * 1440 + 300) none
      {deadline := some (999 * 1440 + 720)} (999 * 1440 + 720) rfl rfl (by decide)⟩

/-! Claim C2: requested Expired with a non-past deadline. -/

/-- Claim C2, counterexample: an update that carries status Expired for a
task whose deadline (day 2000) is after today (day 1000) leaves the stored
status Completed — the request is ignored, not coerced to Pending as
claimed. -/
theorem c2_update_keeps_previous_status_counterexample :
    Except.map Task.status
      (Routes.updateTask (1000 * 1440 + 600) 7 1 {status := some .expired}
        [⟨1, 7, "High", 2000 * 1440 + 720, 3, "d", .completed, some (1500 * 1440 + 720)⟩]).2
      = .ok .completed ∧
    dayOf (1000 * 1440 + 600) ≤ dayOf (2000 * 1440 + 720) ∧
    Status.completed ≠ .pending := by
  refine ⟨rfl, by decide, by decide⟩

/-- Claim C2 (amended): a requested Expired with a deadline dated today or
later never persists Expired, but only the create path coerces it to
Pending; the update path ignores the requested status entirely and keeps the
task's previous status (whatever it was). -/
theorem c2_manual_expiry_amended :
    (∀ now uid nid p dl h d stt, dayOf now ≤ dayOf dl →
      Except.map Task.status
        (Routes.createTask now uid nid
          {priority := some p, deadline := some dl, hours := some h,
           details := some d, status := some .expired, start_time := stt}) = .ok .pending)
  ∧ (∀ now uid tid req store task, store.find? (fun t => t.id == tid) = some task →
      task.user = uid → req.status = some .expired → req.deadline = none →
      dayOf now ≤ dayOf task.deadline →
      Except.map Task.status (Routes.updateTask now uid tid req store).2 = .ok task.status)
  ∧ (∀ now uid tid req store task dl, store.find? (fun t => t.id == tid) = some task →
      task.user = uid → req.status = some .expired → req.deadline = some dl →
      dayOf now ≤ dayOf dl →
      Except.map Task.status (Routes.updateTask now uid tid req store).2 = .ok task.status) := by
  refine ⟨?_, ?_, ?_⟩
  · intro now uid nid p dl h d stt hday
    unfold Routes.createTask
    have hge : ¬ dayOf (Routes.processDate now dl true) * 1440 + 240 < Routes.graceBoundary now := by
      rw [dayOf_processDate]
      have := graceBoundary_le now
      omega
    simp [hge, Except.map]
  · intro now uid tid req store task hfind howner hstat hdl hday
    unfold Routes.updateTask
    rw [hfind, hdl, hstat]
    have hge : ¬ (dayOf task.deadline * 1440 + 240 < Routes.graceBoundary now ∧
        task.status ≠ Status.expired) := by
      intro hc
      have := graceBoundary_le now
      omega
    rcases hstt : req.start_time with _ | stOpt
    · simp [howner, hge, Except.map, Routes.applyFields]
    · rcases stOpt with _ | stv <;> simp [howner, hge, Except.map, Routes.applyFields]
  · intro now uid tid req store task dl hfind howner hstat hdl hday
    unfold Routes.updateTask
    rw [hfind, hdl, hstat]
    have hge : ¬ dayOf (Routes.processDate now dl true) * 1440 + 240 < Routes.graceBoundary now := by
      rw [dayOf_processDate]
      have := graceBoundary_le now
      omega
    rcases hstt : req.start_time with _ | stOpt
    · simp [howner, hge, Except.map, Routes.applyFields]
    · rcases stOpt with _ | stv <;> simp [howner, hge, Except.map, Routes.applyFields]

/-- Claim C2 witness: the amended behaviour at concrete inputs — a create
with requested Expired and a future deadline stores Pending, and updates
with requested Expired on future-deadline tasks keep the previous status. -/
theorem c2_witness :
    Except.map Task.status
      (Routes.createTask (1000 * 1440 + 600) 7 1
        {priority := some "High", deadline := some (2000 * 1440 + 720),
         hours := some 2, details := some "x", status := some .expired}) = .ok .pending ∧
    Except.map Task.status
      (Routes.updateTask (1000 * 1440 + 600) 7 1 {status := some .expired}
        [⟨1, 7, "High", 2000 * 1440 + 720, 3, "d", .inProgress, some (1500 * 1440 + 720)⟩]).2
      = .ok .inProgress ∧
    Except.map Task.status
      (Routes.updateTask (1000 * 1440 + 600) 7 1
        {status := some .expired, deadline := some (1000 * 1440 + 600)}
        [⟨1, 7, "High", 2000 * 1440 + 720, 3, "d", .pending, none⟩]).2 = .ok .pending :=
  ⟨c2_manual_expiry_amended.1 (1000 * 1440 + 600) 7 1 "High" (2000 * 1440 + 720) 2 "x"
      none (by decide),
   c2_manual_expiry_amended.2.1 (1000 * 1440 + 600) 7 1 {status := some .expired}
      [⟨1, 7, "High", 2000 * 1440 + 720, 3, "d", .inProgress, some (1500 * 1440 + 720)⟩]
      ⟨1, 7, "High", 2000 * 1440 + 720, 3, "d", .inProgress, some (1500 * 1440 + 720)⟩
      rfl rfl rfl rfl (by decide),
   c2_manual_expiry_amended.2.2 (1000 * 1440 + 600) 7 1
      {status := some .expired, deadline := some (1000 * 1440 + 600)}
      [⟨1, 7, "High", 2000 * 1440 + 720, 3, "d", .pending, none⟩]
      ⟨1, 7, "High", 2000 * 1440 + 720, 3, "d", .pending, none⟩ (1000 * 1440 + 600)
      rfl rfl rfl rfl (by decide)⟩

/-! Claim C4: start-time floor on updates to In Progress. -/

/-- Claim C4, counterexample: an update at 10:00 of day 1000 setting status
In Progress with a start_time dated yesterday (day 999) does not fail: it
succeeds and modifies the task, persisting In Progress with the start time
normalized to noon of the past date — no 400 validation error occurs. -/
theorem c4_no_floor_counterexample :
    (Routes.updateTask (1000 * 1440 + 600) 7 1
        {status := some .inProgress, start_time := some (some (999 * 1440 + 300))}
        [⟨1, 7, "High", 2000 * 1440 + 720, 3, "d", .pending, none⟩]).2
      = .ok ⟨1, 7, "High", 2000 * 1440 + 720, 3, "d", .inProgress, some (999 * 1440 + 720)⟩ ∧
    dayOf (999 * 1440 + 300) < dayOf (1000 * 1440 + 600) ∧
    (⟨1, 7, "High", 2000 * 1440 + 720, 3, "d", .inProgress, some (999 * 1440 + 720)⟩ : Task)
      ≠ ⟨1, 7, "High", 2000 * 1440 + 720, 3, "d", .pending, none⟩ := by
  refine ⟨rfl, by decide, by decide⟩

/-- Claim C4 (amended): the before-today floor on an In Progress start time
exists only in taskUtils.processStartTime, which raises the claimed
validation error; the PUT route does not invoke it for an explicit
start_time — such an update succeeds with the start time fixed to noon of
the (past) requested date and the task modified. -/
theorem c4_start_time_floor_amended :
    (∀ now old t, dayOf t < dayOf now →
      TaskUtils.processStartTime now .inProgress (some t) old =
        .error "Start time cannot be earlier than today")
  ∧ (∀ now uid tid req store task t, store.find? (fun u => u.id == tid) = some task →
      task.user = uid → req.status = some .inProgress →
      req.start_time = some (some t) → dayOf t < dayOf now →
      req.deadline = none → dayOf now ≤ dayOf task.deadline →
      Except.map (fun u => (u.status, u.start_time)) (Routes.updateTask now uid tid req store).2
        = .ok (.inProgress, some (noonOfDay (dayOf t)))) := by
  constructor
  · intro now old t hday
    unfold TaskUtils.processStartTime
    have hlt : DateUtils.getDateOnly t < DateUtils.getTodayDate now := by
      unfold DateUtils.getTodayDate DateUtils.getDateOnly startOfDay
      omega
    simp [hlt]
  · intro now uid tid req store task t hfind howner hstat hstt hday hdl hdead
    unfold Routes.updateTask
    rw [hfind, hdl, hstat, hstt]
    have hne : (dayOf t == dayOf now) = false := by
      refine beq_eq_false_iff_ne.mpr ?_
      omega
    have hpd : Routes.processDate now t true = noonOfDay (dayOf t) := by
      unfold Routes.processDate
      rw [hne]
      simp
    have hge : ¬ (dayOf task.deadline * 1440 + 240 < Routes.graceBoundary now ∧
        task.status ≠ Status.expired) := by
      intro hc
      have := graceBoundary_le now
      omega
    simp [howner, hpd, hge, Except.map, Routes.applyFields]

/-- Claim C4 witness: at day 2000, the floor error from processStartTime and
the floor-free route update at concrete inputs. -/
theorem c4_witness :
    TaskUtils.processStartTime (2000 * 1440 + 600) .inProgress (some (1999 * 1440 + 300)) none
      = .error "Start time cannot be earlier than today" ∧
    Except.map (fun u => (u.status, u.start_time))
      (Routes.updateTask (2000 * 1440 + 600) 7 1
        {status := some .inProgress, start_time := some (some (1999 * 1440 + 300))}
        [⟨1, 7, "High", 3000 * 1440 + 720, 3, "d", .pending, none⟩]).2
      = .ok (.inProgress, some (noonOfDay (dayOf (1999 * 1440 + 300)))) :=
  ⟨c4_start_time_floor_amended.1 (2000 * 1440 + 600) none (1999 * 1440 + 300) (by decide),
   c4_start_time_floor_amended.2 (2000 * 1440 + 600) 7 1
      {status := some .inProgress, start_time := some (some (1999 * 1440 + 300))}
      [⟨1, 7, "High", 3000 * 1440 + 720, 3, "d", .pending, none⟩]
      ⟨1, 7, "High", 3000 * 1440 + 720, 3, "d", .pending, none⟩ (1999 * 1440 + 300)
      rfl rfl rfl rfl (by decide) rfl (by decide)⟩

/-! Claim C6: idempotence of the expiry sweep. -/

theorem sweepMatch_after_sweep (B uid : Nat) (store : List Task) :
    ∀ t' ∈ (sweepWithBoundary B uid store).1, sweepMatch B uid t' = false := by
  intro t' ht'
  unfold sweepWithBoundary at ht'
  simp only [List.mem_map] at ht'
  obtain ⟨t, htmem, heq⟩ := ht'
  subst heq
  by_cases hc : (((store.filter (sweepMatch B uid)).map Task.id).contains t.id
      && t.user == uid) = true
  · rw [if_pos hc]
    simp [sweepMatch]
  · rw [if_neg hc]
    by_contra hmatch
    rw [Bool.not_eq_false] at hmatch
    apply hc
    have htfilt : t ∈ store.filter (sweepMatch B uid) := List.mem_filter.mpr ⟨htmem, hmatch⟩
    have hid : t.id ∈ (store.filter (sweepMatch B uid)).map Task.id :=
      List.mem_map_of_mem _ htfilt
    have huser : (t.user == uid) = true := by
      unfold sweepMatch at hmatch
      exact ((Bool.and_eq_true _ _).mp ((Bool.and_eq_true _ _).mp hmatch).1).1
    rw [Bool.and_eq_true]
    exact ⟨List.elem_eq_true_of_mem hid, huser⟩

theorem sweepWithBoundary_idem (B uid : Nat) (store : List Task) :
    sweepWithBoundary B uid (sweepWithBoundary B uid store).1
      = ((sweepWithBoundary B uid store).1, 0) := by
  set s1 := (sweepWithBoundary B uid store).1 with hs1
  have hfilt : s1.filter (sweepMatch B uid) = [] :=
    List.filter_eq_nil_iff.mpr fun t ht => by
      simp [sweepMatch_after_sweep B uid store t (hs1 ▸ ht)]
  show sweepWithBoundary B uid s1 = (s1, 0)
  unfold sweepWithBoundary
  rw [hfilt]
  simp

/-- Claim C6, counterexample: at 02:00 of day 1000 the per-request sweep
middleware (4am-grace boundary) does not expire a Pending task whose
deadline is 23:00 of day 999 — a date strictly before today — and running it
twice leaves the task Pending, so the claimed final state (Expired) is not
reached. -/
theorem c6_grace_window_counterexample :
    (Routes.autoUpdateExpiredStatus (1000 * 1440 + 120) 5
      (Routes.autoUpdateExpiredStatus (1000 * 1440 + 120) 5
        [⟨1, 5, "High", 999 * 1440 + 1380, 2, "d", .pending, none⟩]).1)
      = ([⟨1, 5, "High", 999 * 1440 + 1380, 2, "d", .pending, none⟩], 0) ∧
    dayOf (999 * 1440 + 1380) < dayOf (1000 * 1440 + 120) ∧
    Status.pending ≠ .expired := by
  refine ⟨rfl, by decide, by decide⟩

/-- Claim C6 (amended): for the taskUtils sweep (start-of-day boundary) the
claim holds in full — one run flips every non-Expired task of the user whose
deadline is dated before today to Expired, and a second run returns the same
store and transitions zero tasks; the route middleware sweep is likewise
idempotent with a zero count on the second run, but with its 4am-grace
boundary the final status of a before-today task need not be Expired. -/
theorem c6_sweep_idempotent_amended :
    (∀ now uid store t, t ∈ store → t.user = uid → dayOf t.deadline < dayOf now →
      t.status ≠ .expired →
      {t with status := .expired} ∈ (TaskUtils.updateExpiredTasksForUser now uid store).1)
  ∧ (∀ now uid store,
      TaskUtils.updateExpiredTasksForUser now uid
          (TaskUtils.updateExpiredTasksForUser now uid store).1
        = ((TaskUtils.updateExpiredTasksForUser now uid store).1, 0))
  ∧ (∀ now uid store,
      Routes.autoUpdateExpiredStatus now uid
          (Routes.autoUpdateExpiredStatus now uid store).1
        = ((Routes.autoUpdateExpiredStatus now uid store).1, 0)) := by
  refine ⟨?_, ?_, ?_⟩
  · intro now uid store t htmem huser hday hstat
    unfold TaskUtils.updateExpiredTasksForUser sweepWithBoundary
    have hmatch : sweepMatch (DateUtils.getTodayDate now) uid t = true := by
      unfold sweepMatch DateUtils.getTodayDate DateUtils.getDateOnly startOfDay
      have hdl : t.deadline < dayOf now * 1440 := dayOf_lt_iff.mp hday
      simp [huser, hdl, hstat, bne]
    have htfilt : t ∈ store.filter (sweepMatch (DateUtils.getTodayDate now) uid) :=
      List.mem_filter.mpr ⟨htmem, hmatch⟩
    have hid : t.id ∈ (store.filter (sweepMatch (DateUtils.getTodayDate now) uid)).map Task.id :=
      List.mem_map_of_mem _ htfilt
    have hcond : (((store.filter (sweepMatch (DateUtils.getTodayDate now) uid)).map
        Task.id).contains t.id && t.user == uid) = true := by
      rw [Bool.and_eq_true]
      exact ⟨List.elem_eq_true_of_mem hid, by simp [huser]⟩
    refine List.mem_map.mpr ⟨t, htmem, ?_⟩
    show (if (((store.filter (sweepMatch (DateUtils.getTodayDate now) uid)).map
          Task.id).contains t.id && t.user == uid) = true
        then {t with status := Status.expired} else t) = {t with status := Status.expired}
    rw [if_pos hcond]
  · intro now uid store
    exact sweepWithBoundary_idem (DateUtils.getTodayDate now) uid store
  · intro now uid store
    exact sweepWithBoundary_idem (Routes.graceBoundary now) uid store

/-- Claim C6 witness: the full taskUtils-sweep property at a concrete store —
the stale Pending task is flipped to Expired by the first run, and both
sweeps are no-ops on their own output. -/
theorem c6_witness :
    ((⟨1, 5, "High", 999 * 1440 + 1380, 2, "d", .expired, none⟩ : Task)
      ∈ (TaskUtils.updateExpiredTasksForUser (1000 * 1440 + 120) 5
          [⟨1, 5, "High", 999 * 1440 + 1380, 2, "d", .pending, none⟩]).1) ∧
    (TaskUtils.updateExpiredTasksForUser (1000 * 1440 + 120) 5
        (TaskUtils.updateExpiredTasksForUser (1000 * 1440 + 120) 5
          [⟨1, 5, "High", 999 * 1440 + 1380, 2, "d", .pending, none⟩]).1
      = ((TaskUtils.updateExpiredTasksForUser (1000 * 1440 + 120) 5
          [⟨1, 5, "High", 999 * 1440 + 1380, 2, "d", .pending, none⟩]).1, 0)) ∧
    (Routes.autoUpdateExpiredStatus (1000 * 1440 + 120) 5
        (Routes.autoUpdateExpiredStatus (1000 * 1440 + 120) 5
          [⟨1, 5, "High", 999 * 1440 + 1380, 2, "d", .pending, none⟩]).1
      = ((Routes.autoUpdateExpiredStatus (1000 * 1440 + 120) 5
          [⟨1, 5, "High", 999 * 1440 + 1380, 2, "d", .pending, none⟩]).1, 0)) :=
  ⟨c6_sweep_idempotent_amended.1 (1000 * 1440 + 120) 5
      [⟨1, 5, "High", 999 * 1440 + 1380, 2, "d", .pending, none⟩]
      ⟨1, 5, "High", 999 * 1440 + 1380, 2, "d", .pending, none⟩
      (by simp) rfl (by decide) (by decide),
   c6_sweep_idempotent_amended.2.1 (1000 * 1440 + 120) 5
      [⟨1, 5, "High", 999 * 1440 + 1380, 2, "d", .pending, none⟩],
   c6_sweep_idempotent_amended.2.2 (1000 * 1440 + 120) 5
      [⟨1, 5, "High", 999 * 1440 + 1380, 2, "d", .pending, none⟩]⟩

/-! Lemmas about updateFirst and the batch In Progress loop. -/

theorem updateFirst_cons_pos (p : Task → Bool) (f : Task → Task) (t : Task)
    (ts : List Task) (h : p t = true) :
    updateFirst p f (t :: ts) = f t :: ts := by
  simp only [updateFirst, h, if_true]

theorem updateFirst_cons_neg (p : Task → Bool) (f : Task → Task) (t : Task)
    (ts : List Task) (h : p t = false) :
    updateFirst p f (t :: ts) = t :: updateFirst p f ts := by
  simp only [updateFirst, h, Bool.false_eq_true, if_false]

theorem batchInProgressStep_nil (now i : Nat) :
    Routes.batchInProgressStep now [] i = [] := rfl

theorem batchInProgressStep_cons_hit (now i : Nat) (t : Task) (ts : List Task)
    (h : (t.id == i) = true) :
    Routes.batchInProgressStep now (t :: ts) i =
      (if t.status ≠ .inProgress then {t with status := .inProgress, start_time := some now}
       else {t with status := .inProgress}) :: ts := by
  unfold Routes.batchInProgressStep
  simp only [List.find?, h]
  by_cases hst : t.status = .inProgress
  · rw [if_neg (by simp [hst]), if_neg (by simp [hst]), updateFirst_cons_pos _ _ _ _ h]
  · rw [if_pos hst, if_pos hst, updateFirst_cons_pos _ _ _ _ h]

theorem batchInProgressStep_cons_miss (now i : Nat) (t : Task) (ts : List Task)
    (h : (t.id == i) = false) :
    Routes.batchInProgressStep now (t :: ts) i = t :: Routes.batchInProgressStep now ts i := by
  unfold Routes.batchInProgressStep
  simp only [List.find?, h]
  cases hf : List.find? (fun u => u.id == i) ts with
  | none => simp only [hf]
  | some u =>
    simp only [hf]
    by_cases hst : u.status = .inProgress
    · rw [if_neg (by simp [hst]), if_neg (by simp [hst]), updateFirst_cons_neg _ _ _ _ h]
    · rw [if_pos hst, if_pos hst, updateFirst_cons_neg _ _ _ _ h]

theorem inv_batchInProgressStep (now i : Nat) (s : List Task)
    (h : ∀ t ∈ s, Inv t) : ∀ t ∈ Routes.batchInProgressStep now s i, Inv t := by
  induction s with
  | nil =>
    intro t ht
    rw [batchInProgressStep_nil] at ht
    exact absurd ht (List.not_mem_nil t)
  | cons t ts ih =>
    intro u hu
    cases hti : (t.id == i) with
    | false =>
      rw [batchInProgressStep_cons_miss now i t ts hti] at hu
      rcases List.mem_cons.mp hu with rfl | hmem
      · exact h u (List.mem_cons_self u ts)
      · exact ih (fun v hv => h v (List.mem_cons_of_mem _ hv)) u hmem
    | true =>
      rw [batchInProgressStep_cons_hit now i t ts hti] at hu
      rcases List.mem_cons.mp hu with rfl | hmem
      · by_cases hst : t.status = .inProgress
        · rw [if_neg (by simp [hst])]
          refine ⟨fun hp => ?_, fun _ => ?_⟩
          · exact absurd hp (by simp)
          · exact (h t (List.mem_cons_self t ts)).2 hst
        · rw [if_pos hst]
          exact ⟨fun hp => absurd hp (by simp), fun _ => by simp⟩
      · exact h u (List.mem_cons_of_mem _ hmem)

theorem inv_batchInProgressLoop (now : Nat) (ids : List Nat) (s : List Task)
    (h : ∀ t ∈ s, Inv t) :
    ∀ t ∈ ids.foldl (Routes.batchInProgressStep now) s, Inv t := by
  induction ids generalizing s with
  | nil => simpa using h
  | cons i rest ih =>
    rw [List.foldl_cons]
    exact ih _ (inv_batchInProgressStep now i s h)

/-! Claim C3: the Pending/In Progress start-time invariants. -/

/-- Claim C3, counterexample: a successful create with status Pending (the
default) and an explicit start_time persists a Pending task with a non-null
start_time, violating the invariant status = Pending implies
start_time = null. -/
theorem c3_pending_start_time_counterexample :
    Except.map (fun t => (t.status, t.start_time))
      (Routes.createTask (1000 * 1440 + 600) 7 1
        {priority := some "High", deadline := some (2000 * 1440), hours := some 2,
         details := some "x", start_time := some (some (500 * 1440))})
      = .ok (.pending, some (500 * 1440 + 720)) ∧
    some (500 * 1440 + 720) ≠ (none : Option Nat) := by
  refine ⟨rfl, by simp⟩

/-- Claim C3 (amended): the batch status update preserves both invariants
(given every stored task satisfied them before), and a created task with
status In Progress always has a non-null start_time; but create and single
update do not enforce the Pending invariant when the request carries an
explicit start_time (and update can persist In Progress with an explicit
null start_time). -/
theorem c3_invariants_amended :
    (∀ now uid req store, (∀ t ∈ store, Inv t) →
      ∀ t ∈ (Routes.batchUpdateStatus now uid req store).1, Inv t)
  ∧ (∀ now uid nid req t, Routes.createTask now uid nid req = .ok t →
      t.status = .inProgress → t.start_time ≠ none) := by
  constructor
  · intro now uid req store h
    obtain ⟨taskIds, stOpt⟩ := req
    unfold Routes.batchUpdateStatus
    cases stOpt with
    | none => exact h
    | some st =>
      simp only []
      split
      · exact h
      split
      · exact h
      split
      · exact h
      split
      · exact h
      split
      · intro u hu
        rw [List.mem_map] at hu
        obtain ⟨t, ht, heq⟩ := hu
        subst heq
        split
        · exact ⟨fun _ => rfl, fun hip => by simp at hip⟩
        · exact h t ht
      split
      · exact inv_batchInProgressLoop now _ store h
      · next hnp hnip =>
        intro u hu
        rw [List.mem_map] at hu
        obtain ⟨t, ht, heq⟩ := hu
        subst heq
        split
        · exact ⟨fun hp => absurd hp hnp, fun hip => absurd hip hnip⟩
        · exact h t ht
  · intro now uid nid req t hok hst
    obtain ⟨p, dl, hrs, det, stt, sttime⟩ := req
    cases p with
    | none => simp [Routes.createTask] at hok
    | some p =>
    cases dl with
    | none => simp [Routes.createTask] at hok
    | some dl =>
    cases hrs with
    | none => simp [Routes.createTask] at hok
    | some hrs =>
    cases det with
    | none => simp [Routes.createTask] at hok
    | some det =>
    unfold Routes.createTask at hok
    simp only [Except.ok.injEq] at hok
    subst hok
    simp only [] at hst
    cases sttime with
    | none =>
      simp only [if_pos hst]
      simp
    | some o =>
      cases o with
      | none =>
        simp only [if_pos hst]
        simp
      | some x => simp

/-- Claim C3 witness: the amended invariants at concrete inputs — the batch
endpoint moving a Pending task to In Progress yields a task satisfying both
invariants, and a concrete In Progress create carries a start time. -/
theorem c3_witness :
    Inv ⟨1, 7, "High", 2000 * 1440, 2, "d", .inProgress, some (1000 * 1440 + 600)⟩ ∧
    (⟨1, 7, "High", noonOfDay 2000, 2, "x", .inProgress, some (1000 * 1440 + 600)⟩ : Task).start_time
      ≠ none :=
  ⟨c3_invariants_amended.1 (1000 * 1440 + 600) 7
      {taskIds := [1], status := some .inProgress}
      [⟨1, 7, "High", 2000 * 1440, 2, "d", .pending, none⟩]
      (by
        intro t ht
        rw [List.mem_singleton] at ht
        subst ht
        exact ⟨fun _ => rfl, fun hip => by simp at hip⟩)
      ⟨1, 7, "High", 2000 * 1440, 2, "d", .inProgress, some (1000 * 1440 + 600)⟩
      (by decide),
   c3_invariants_amended.2 (1000 * 1440 + 600) 7 1
      {priority := some "High", deadline := some (2000 * 1440), hours := some 2,
       details := some "x", status := some .inProgress}
      ⟨1, 7, "High", noonOfDay 2000, 2, "x", .inProgress, some (1000 * 1440 + 600)⟩
      rfl rfl⟩

/-! Claim C7: exact owned subset on batch updates. -/

theorem batchApply_id (now : Nat) (st : Status) (t : Task) :
    (batchApply now st t).id = t.id := by
  unfold batchApply
  split
  · rfl
  split
  · split <;> rfl
  · rfl

theorem batchApply_inProgress (now : Nat) (t : Task) :
    batchApply now .inProgress t =
      if t.status ≠ .inProgress then {t with status := .inProgress, start_time := some now}
      else {t with status := .inProgress} := by
  unfold batchApply
  simp

theorem map_untouched_of_no_id (i : Nat) (f : Task → Task) (ts : List Task)
    (h : ∀ u ∈ ts, (u.id == i) = false) :
    ts.map (fun t => if t.id == i then f t else t) = ts := by
  rw [List.map_congr_left (g := fun t => t) (fun u hu => by rw [h u hu]; simp)]
  exact List.map_id' ts

theorem batchInProgressStep_eq_map (now i : Nat) (s : List Task)
    (hnodup : (s.map Task.id).Nodup) :
    Routes.batchInProgressStep now s i =
      s.map (fun t => if t.id == i then batchApply now .inProgress t else t) := by
  induction s with
  | nil => rfl
  | cons t ts ih =>
    rw [List.map_cons, List.nodup_cons] at hnodup
    obtain ⟨hnotin, htail⟩ := hnodup
    cases hti : (t.id == i) with
    | true =>
      rw [batchInProgressStep_cons_hit now i t ts hti, List.map_cons, hti]
      have hid : t.id = i := beq_iff_eq.mp hti
      have hnone : ∀ u ∈ ts, (u.id == i) = false := by
        intro u hu
        refine beq_eq_false_iff_ne.mpr fun hc => hnotin ?_
        rw [hid, ← hc]
        exact List.mem_map_of_mem _ hu
      rw [map_untouched_of_no_id i _ ts hnone]
      simp [batchApply_inProgress]
    | false =>
      rw [batchInProgressStep_cons_miss now i t ts hti, List.map_cons, hti, ih htail]
      simp

theorem batchInProgressStep_map_id (now i : Nat) (s : List Task) :
    (Routes.batchInProgressStep now s i).map Task.id = s.map Task.id := by
  induction s with
  | nil => rfl
  | cons t ts ih =>
    cases hti : (t.id == i) with
    | true =>
      rw [batchInProgressStep_cons_hit now i t ts hti, List.map_cons, List.map_cons]
      split <;> rfl
    | false =>
      rw [batchInProgressStep_cons_miss now i t ts hti, List.map_cons, List.map_cons, ih]

theorem batchInProgressLoop_eq_map (now : Nat) (ids : List Nat) (s : List Task)
    (hnodup : (s.map Task.id).Nodup) (hids : ids.Nodup) :
    ids.foldl (Routes.batchInProgressStep now) s =
      s.map (fun t => if ids.contains t.id then batchApply now .inProgress t else t) := by
  induction ids generalizing s with
  | nil =>
    simp only [List.foldl_nil, List.contains_nil, Bool.false_eq_true, if_false]
    exact (List.map_id' s).symm
  | cons i rest ih =>
    rw [List.nodup_cons] at hids
    obtain ⟨hinotin, hrest⟩ := hids
    rw [List.foldl_cons, batchInProgressStep_eq_map now i s hnodup]
    have hnodup' : ((s.map (fun t => if t.id == i then batchApply now .inProgress t else t)).map
        Task.id).Nodup := by
      rw [← batchInProgressStep_eq_map now i s hnodup, batchInProgressStep_map_id]
      exact hnodup
    rw [ih _ hnodup' hrest, List.map_map]
    refine List.map_congr_left fun t htmem => ?_
    simp only [Function.comp]
    cases hti : (t.id == i) with
    | true =>
      have hid : t.id = i := beq_iff_eq.mp hti
      simp [hti, hid, batchApply_id, hinotin, List.contains_cons]
    | false =>
      have hne : t.id ≠ i := beq_eq_false_iff_ne.mp hti
      by_cases hmem : t.id ∈ rest <;> simp [hti, hmem, hne, List.contains_cons]

theorem contains_foundIds_eq (uid : Nat) (taskIds : List Nat) (store : List Task)
    (hnodup : (store.map Task.id).Nodup) (t : Task) (htmem : t ∈ store) :
    ((store.filter (fun u => taskIds.contains u.id && u.user == uid)).map Task.id).contains t.id
      = (taskIds.contains t.id && t.user == uid) := by
  by_cases hp : (taskIds.contains t.id && t.user == uid) = true
  · rw [hp]
    have : t ∈ store.filter (fun u => taskIds.contains u.id && u.user == uid) :=
      List.mem_filter.mpr ⟨htmem, hp⟩
    exact List.elem_eq_true_of_mem (List.mem_map_of_mem _ this)
  · rw [Bool.not_eq_true] at hp
    rw [hp]
    by_contra hc
    rw [Bool.not_eq_false] at hc
    obtain ⟨u, humem, huid⟩ := List.mem_map.mp (List.elem_iff.mp hc)
    have hufilt := List.mem_filter.mp humem
    have : u = t := List.inj_on_of_nodup_map hnodup hufilt.1 htmem huid
    subst this
    rw [hufilt.2] at hp
    exact Bool.true_eq_false.mp hp

/-- Claim C7, counterexample: a batch update whose single id resolves to a
task owned by another user does not silently exclude it: the request fails
with 404 instead of succeeding with an empty updatedTasks list, refuting
"never cause the request to fail". -/
theorem c7_unowned_causes_failure_counterexample :
    Routes.batchUpdateStatus 1440000 1 {taskIds := [1], status := some .completed}
        [⟨1, 2, "High", 2000 * 1440, 2, "d", .pending, none⟩]
      = ([⟨1, 2, "High", 2000 * 1440, 2, "d", .pending, none⟩],
         .error ⟨404, "No specified tasks found"⟩) := rfl

/-- Claim C7 (amended): provided at least one id resolves to a caller-owned
task (and the request is otherwise valid), the batch endpoint succeeds,
updates exactly the owned-and-found subset (Pending resets start_time,
In Progress stamps it when newly entered, Completed leaves it), returns
exactly that subset's ids in updatedTasks, and silently excludes all other
ids; when no id resolves the request fails with 404. -/
theorem c7_exact_owned_subset_amended (now uid : Nat) (req : Routes.BatchReq)
    (st : Status) (store : List Task)
    (hnodup : (store.map Task.id).Nodup)
    (hids : req.taskIds ≠ [])
    (hst : req.status = some st)
    (hnexp : st ≠ .expired)
    (howned : ∃ t ∈ store, t.id ∈ req.taskIds ∧ t.user = uid) :
    Routes.batchUpdateStatus now uid req store =
      (store.map (fun t =>
          if req.taskIds.contains t.id && t.user == uid then batchApply now st t else t),
       .ok ⟨(store.filter (fun t => req.taskIds.contains t.id && t.user == uid)).map Task.id,
            st⟩) := by
  obtain ⟨taskIds, stOpt⟩ := req
  simp only [] at hids hst ⊢
  subst hst
  unfold Routes.batchUpdateStatus
  have hemp : taskIds.isEmpty = false := by simpa [List.isEmpty_iff] using hids
  have hvalid : st ∈ Routes.validStatuses := by
    cases st <;> simp_all [Routes.validStatuses]
  obtain ⟨t0, ht0mem, ht0id, ht0uid⟩ := howned
  have ht0id' : t0.id ∈ taskIds := ht0id
  have htasksne : store.filter (fun t => taskIds.contains t.id && t.user == uid) ≠ [] := by
    intro hc
    have hmem0 : t0 ∈ store.filter (fun t => taskIds.contains t.id && t.user == uid) :=
      List.mem_filter.mpr ⟨ht0mem, by
        rw [Bool.and_eq_true]
        exact ⟨List.elem_eq_true_of_mem ht0id', by simp [ht0uid]⟩⟩
    rw [hc] at hmem0
    exact absurd hmem0 (List.not_mem_nil t0)
  have htasksemp : (store.filter (fun t => taskIds.contains t.id && t.user == uid)).isEmpty
      = false := by simpa [List.isEmpty_iff] using htasksne
  simp only [hemp, hnexp, hvalid, htasksemp, Bool.false_eq_true, if_false, if_true,
    not_true, not_false_iff]
  have hfoundNodup : ((store.filter (fun t => taskIds.contains t.id && t.user == uid)).map
      Task.id).Nodup :=
    ((List.filter_sublist store).map Task.id).nodup hnodup
  rw [Prod.mk.injEq]
  refine ⟨?_, rfl⟩
  by_cases hpend : st = .pending
  · subst hpend
    rw [if_pos (rfl : Status.pending = Status.pending)]
    refine List.map_congr_left fun t htmem => ?_
    rw [contains_foundIds_eq uid taskIds store hnodup t htmem]
    rcases hcond : (taskIds.contains t.id && t.user == uid) with h1 | h2
    · simp
    · simp [batchApply]
  · by_cases hip : st = .inProgress
    · subst hip
      rw [if_neg (by simp), if_pos (rfl : Status.inProgress = Status.inProgress)]
      rw [batchInProgressLoop_eq_map now _ store hnodup hfoundNodup]
      refine List.map_congr_left fun t htmem => ?_
      rw [contains_foundIds_eq uid taskIds store hnodup t htmem]
    · rw [if_neg hpend, if_neg hip]
      refine List.map_congr_left fun t htmem => ?_
      rw [contains_foundIds_eq uid taskIds store hnodup t htmem]
      have hcomp : st = .completed := by cases st <;> simp_all
      subst hcomp
      rcases hcond : (taskIds.contains t.id && t.user == uid) with h1 | h2
      · simp
      · simp [batchApply]

/-- Claim C7 witness: a two-task store where only the first task is owned by
the caller — the batch update to Completed updates exactly the owned task
and returns exactly its id. -/
theorem c7_witness :
    Routes.batchUpdateStatus 1440000 7 {taskIds := [1, 2], status := some .completed}
        [⟨1, 7, "High", 2000 * 1440, 2, "a", .pending, none⟩,
         ⟨2, 9, "Low", 2000 * 1440, 2, "b", .pending, none⟩]
      = ([⟨1, 7, "High", 2000 * 1440, 2, "a", .completed, none⟩,
          ⟨2, 9, "Low", 2000 * 1440, 2, "b", .pending, none⟩],
         .ok ⟨[1], .completed⟩) := by
  have h := c7_exact_owned_subset_amended 1440000 7
    {taskIds := [1, 2], status := some .completed} .completed
    [⟨1, 7, "High", 2000 * 1440, 2, "a", .pending, none⟩,
     ⟨2, 9, "Low", 2000 * 1440, 2, "b", .pending, none⟩]
    (by decide) (by decide) rfl (by decide)
    ⟨⟨1, 7, "High", 2000 * 1440, 2, "a", .pending, none⟩, by decide, by decide, rfl⟩
  rw [h]
  rfl

end TodoBackend
